import Mathlib

/-!
# cernvm_fix_auto_resize: the udev monitor loop

A shallow embedding of `main` of `src/vboxguest52/src/cernvm_fix_auto_resize.c`.

The program only talks to its environment (libudev, `select`, `sleep`, `printf`,
`daemon`, `system`), so `main` is embedded as a function from what the environment
answers to the sequence of calls the process makes:

* `Startup` holds the results of the one-time library calls of lines 17-26;
* the `k`-th call of `system` returns `sys k`;
* each `Wake` is one return of `select` (its return value, the state of the
  descriptor in the read set, and what `udev_monitor_receive_device` hands out
  if it is called during that iteration).

`while (1)` never ends.  A run is described by the finite list of wakes that
happen; once they are used up the process is blocked in the next `select`, which is
the last action of the trace.

`assert` is the macro of `<assert.h>`; the source does not define `NDEBUG`, so a
failed assertion calls `abort`.
-/

namespace CernvmFixAutoResize

/-- The three strings read from a received `struct udev_device` by
`udev_device_get_action`, `udev_device_get_sysname` and `udev_device_get_devpath`. -/
structure Device where
  action : String
  sysname : String
  devpath : String
  deriving DecidableEq

/-- One call made by the process, with the arguments that matter. -/
inductive Action where
  | udev_new
  | udev_monitor_new_from_netlink (name : String)
  | udev_monitor_filter_add_match_subsystem_devtype (subsystem devtype : String)
  | udev_monitor_enable_receiving
  | udev_monitor_get_fd
  | abort
  | daemon (nochdir noclose : Int)
  | system (command : String)
  | select (fd : Int)
  | udev_monitor_receive_device
  | sleep (seconds : Nat)
  | printf (output : String)
  | udev_device_unref
  deriving DecidableEq

/-- Results of the start-up calls (lines 17-26). -/
structure Startup where
  /-- `udev_new()` returned a non-NULL pointer. -/
  udev : Bool
  /-- `udev_monitor_new_from_netlink(udev, "udev")` returned a non-NULL pointer. -/
  mon : Bool
  /-- Return value of `udev_monitor_filter_add_match_subsystem_devtype` (negative on failure). -/
  filterRet : Int
  /-- Return value of `udev_monitor_enable_receiving` (negative on failure). -/
  enableRet : Int
  /-- Return value of `udev_monitor_get_fd`. -/
  fd_udev : Int
  /-- Return value of `daemon(0, 0)`. -/
  daemonRet : Int
  deriving DecidableEq

/-- One return of `select` inside the loop. -/
structure Wake where
  /-- Value returned by `select`. -/
  retval : Int
  /-- `FD_ISSET(fd_udev, &fds)` after the call. -/
  isset : Bool
  /-- What `udev_monitor_receive_device(mon)` returns if it is called (`none` is NULL). -/
  dev : Option Device
  deriving DecidableEq

/-- How the run stands at the end of the described part of the execution. -/
inductive Status where
  /-- Terminated by `abort()` (SIGABRT): abnormal termination. -/
  | aborted
  /-- Blocked in `select`, inside the loop. -/
  | waiting
  /-- Returned from `main` with the given code. -/
  | exited (code : Int)
  deriving DecidableEq

/-- The calls made so far, and how many of them were calls of `system`. -/
structure World where
  trace : List Action
  nsys : Nat
  deriving DecidableEq

/-- What is observed of a run. -/
structure Run where
  trace : List Action
  status : Status
  deriving DecidableEq

/-- Record one call. -/
def World.emit (W : World) (a : Action) : World :=
  { W with trace := W.trace ++ [a] }

/-- The call `system(command)`: it is recorded, and the status of the command,
`sys k` for the `k`-th call, is handed back to the caller. -/
def system (sys : Nat → Int) (command : String) (W : World) : Int × World :=
  (sys W.nsys, { trace := W.trace ++ [Action.system command], nsys := W.nsys + 1 })

/-- A failed `assert`: the process calls `abort`. -/
def assertFail (W : World) : Run :=
  { trace := (W.emit Action.abort).trace, status := Status.aborted }

/-- The body of `while (1)`, lines 30-48, for one return of `select`. -/
def iteration (sys : Nat → Int) (fd_udev : Int) (w : Wake) (W : World) : World :=
  let W := W.emit (Action.select fd_udev)
  let retval := w.retval
  if retval > 0 ∧ w.isset = true then
    let W := W.emit Action.udev_monitor_receive_device
    let dev := w.dev
    let W := W.emit (Action.sleep 1)
    match dev with
    | some d =>
      let W := W.emit (Action.printf ("I: ACTION=" ++ d.action ++ "\n"))
      let W := W.emit (Action.printf ("I: DEVNAME=" ++ d.sysname ++ "\n"))
      let W := W.emit (Action.printf ("I: DEVPATH=" ++ d.devpath ++ "\n"))
      let W := W.emit (Action.printf "---\n")
      let W := W.emit Action.udev_device_unref
      (system sys "/usr/bin/xrandr" W).2
    | none => W
  else W

/-- The loop `while (1)`, lines 29-49, over the wakes that happen; then the process
stays blocked in `select`. -/
def loop (sys : Nat → Int) (fd_udev : Int) : List Wake → World → World
  | [], W => W.emit (Action.select fd_udev)
  | w :: ws, W => loop sys fd_udev ws (iteration sys fd_udev w W)

/-- The function `main`, lines 11-54.  The values returned by the filter call
(`s.filterRet`), the enable call (`s.enableRet`), `daemon` (`s.daemonRet`) and `system`
are not read by the source, and so not here.  After `daemon` the run is that of the
process that carries on.  Lines 51-53 follow `while (1)` and are never reached. -/
def main (s : Startup) (sys : Nat → Int) (ws : List Wake) : Run :=
  let W : World := { trace := [], nsys := 0 }
  -- 17-18: udev = udev_new(); assert(udev);
  let W := W.emit Action.udev_new
  if s.udev = false then assertFail W else
  -- 19-20: mon = udev_monitor_new_from_netlink(udev, "udev"); assert(mon);
  let W := W.emit (Action.udev_monitor_new_from_netlink "udev")
  if s.mon = false then assertFail W else
  -- 21-22: the two calls are statements, their results are dropped
  let W := W.emit (Action.udev_monitor_filter_add_match_subsystem_devtype "drm" "drm_minor")
  let W := W.emit Action.udev_monitor_enable_receiving
  -- 23-24: fd_udev = udev_monitor_get_fd(mon); assert(fd_udev >= 0);
  let W := W.emit Action.udev_monitor_get_fd
  let fd_udev := s.fd_udev
  if ¬ fd_udev ≥ 0 then assertFail W else
  -- 26-27: daemon(0, 0); system("/usr/bin/xrandr --auto");
  let W := W.emit (Action.daemon 0 0)
  let W := (system sys "/usr/bin/xrandr --auto" W).2
  -- 29-49: while (1)
  { trace := (loop sys fd_udev ws W).trace, status := Status.waiting }

/-! ## Observations on traces -/

/-- A call of `system`, that is, one invocation of the external geometry command. -/
def Action.isTrigger : Action → Bool
  | Action.system _ => true
  | _ => false

/-- A call of `printf`, that is, one log line. -/
def Action.isLog : Action → Bool
  | Action.printf _ => true
  | _ => false

/-- A call of `select`. -/
def Action.isWait : Action → Bool
  | Action.select _ => true
  | _ => false

/-- A call of `sleep`. -/
def Action.isDelay : Action → Bool
  | Action.sleep _ => true
  | _ => false

/-- A call of `udev_monitor_receive_device`. -/
def Action.isReceive : Action → Bool
  | Action.udev_monitor_receive_device => true
  | _ => false

/-- A call of `daemon`. -/
def Action.isDaemonize : Action → Bool
  | Action.daemon _ _ => true
  | _ => false

/-- Abnormal termination: killed by `abort`, or a non-zero exit code. -/
def Status.abnormal : Status → Bool
  | Status.aborted => true
  | Status.waiting => false
  | Status.exited code => decide (code ≠ 0)

/-- The command line of a call of `system`. -/
def Action.command? : Action → Option String
  | Action.system c => some c
  | _ => none

/-- The text handed to standard output by a sequence of calls, in order.  (Where the
stream leads, `daemon(0, 0)` having redirected it, is outside the model.) -/
def stdout : List Action → String
  | [] => ""
  | Action.printf out :: as => out ++ stdout as
  | _ :: as => stdout as

/-- The condition of line 36: `select` returned a positive value and the descriptor is set. -/
def Wake.ready (w : Wake) : Bool :=
  decide (w.retval > 0) && w.isset

/-- The wake is ready and `udev_monitor_receive_device` hands out a device. -/
def Wake.decoded (w : Wake) : Bool :=
  w.ready && w.dev.isSome

/-- The start-up assertions of lines 18, 20 and 24 all hold. -/
def Startup.passes (s : Startup) : Bool :=
  s.udev && s.mon && decide (0 ≤ s.fd_udev)

/-- The command line given to `system` at line 27. -/
def autoCommand : String := "/usr/bin/xrandr --auto"

/-- The command line given to `system` at line 46. -/
def refreshCommand : String := "/usr/bin/xrandr"

/-- The four `printf` calls of lines 40-43 for a device. -/
def logLines (d : Device) : List Action :=
  [Action.printf ("I: ACTION=" ++ d.action ++ "\n"),
   Action.printf ("I: DEVNAME=" ++ d.sysname ++ "\n"),
   Action.printf ("I: DEVPATH=" ++ d.devpath ++ "\n"),
   Action.printf "---\n"]

/-- The calls of one loop iteration that handles a device: wait, receive, delay,
the log lines, release of the device, the trigger. -/
def eventActions (fd : Int) (d : Device) : List Action :=
  [Action.select fd, Action.udev_monitor_receive_device, Action.sleep 1] ++ logLines d ++
    [Action.udev_device_unref, Action.system refreshCommand]

/-- The calls that follow the delay in an iteration, by what was received. -/
def afterDelay : Option Device → List Action
  | some d => logLines d ++ [Action.udev_device_unref, Action.system refreshCommand]
  | none => []

/-- The calls of one loop iteration, by the wake it serves. -/
def iterActions (fd : Int) (w : Wake) : List Action :=
  if w.ready = true then
    [Action.select fd, Action.udev_monitor_receive_device, Action.sleep 1] ++ afterDelay w.dev
  else [Action.select fd]

/-- The calls of lines 17-26 of a start-up that passes its assertions. -/
def setupActions : List Action :=
  [Action.udev_new, Action.udev_monitor_new_from_netlink "udev",
   Action.udev_monitor_filter_add_match_subsystem_devtype "drm" "drm_minor",
   Action.udev_monitor_enable_receiving, Action.udev_monitor_get_fd, Action.daemon 0 0]

/-- `InsertFailed ws ws'`: the list `ws'` is `ws` with wakes whose `select` failed
(`retval ≤ 0`) inserted at any positions. -/
inductive InsertFailed : List Wake → List Wake → Prop
  | nil : InsertFailed [] []
  | keep (w : Wake) {ws ws' : List Wake} : InsertFailed ws ws' → InsertFailed (w :: ws) (w :: ws')
  | insert (f : Wake) {ws ws' : List Wake} : f.retval ≤ 0 → InsertFailed ws ws' →
      InsertFailed ws (f :: ws')

/-! ## The trace of the loop and of `main` -/

theorem emit_trace (W : World) (a : Action) : (W.emit a).trace = W.trace ++ [a] := rfl

theorem emit_nsys (W : World) (a : Action) : (W.emit a).nsys = W.nsys := rfl

theorem system_trace (sys : Nat → Int) (c : String) (W : World) :
    (system sys c W).2.trace = W.trace ++ [Action.system c] := rfl

theorem ready_iff (w : Wake) : w.ready = true ↔ (w.retval > 0 ∧ w.isset = true) := by
  simp [Wake.ready]

theorem iteration_trace (sys : Nat → Int) (fd : Int) (w : Wake) (W : World) :
    (iteration sys fd w W).trace = W.trace ++ iterActions fd w := by
  unfold iteration iterActions
  by_cases h : w.retval > 0 ∧ w.isset = true
  · have hr : w.ready = true := (ready_iff w).2 h
    cases hd : w.dev with
    | none => simp [h, hr, hd, afterDelay, emit_trace]
    | some d =>
      simp [h, hr, hd, afterDelay, logLines, refreshCommand, emit_trace, system_trace]
  · have hr : ¬ w.ready = true := fun hr => h ((ready_iff w).1 hr)
    simp [h, hr, emit_trace]

theorem loop_trace (sys : Nat → Int) (fd : Int) (ws : List Wake) (W : World) :
    (loop sys fd ws W).trace = W.trace ++ (ws.flatMap (iterActions fd) ++ [Action.select fd]) := by
  induction ws generalizing W with
  | nil => simp [loop, emit_trace]
  | cons w ws ih => simp [loop, ih, iteration_trace, List.append_assoc]

theorem main_passes (s : Startup) (sys : Nat → Int) (ws : List Wake) (h : s.passes = true) :
    main s sys ws =
      { trace := setupActions ++ Action.system autoCommand ::
          (ws.flatMap (iterActions s.fd_udev) ++ [Action.select s.fd_udev]),
        status := Status.waiting } := by
  simp only [Startup.passes, Bool.and_eq_true, decide_eq_true_eq] at h
  obtain ⟨⟨h1, h2⟩, h3⟩ := h
  simp [main, h1, h2, h3, loop_trace, system_trace, emit_trace, setupActions, autoCommand]

theorem iterActions_decoded (fd : Int) (w : Wake) (d : Device) (hr : w.ready = true)
    (hd : w.dev = some d) : iterActions fd w = eventActions fd d := by
  simp [iterActions, hr, hd, afterDelay, eventActions]

theorem iterActions_spurious (fd : Int) (w : Wake) (hr : w.ready = true) (hd : w.dev = none) :
    iterActions fd w =
      [Action.select fd, Action.udev_monitor_receive_device, Action.sleep 1] := by
  simp [iterActions, hr, hd, afterDelay]

theorem iterActions_notReady (fd : Int) (w : Wake) (hr : w.ready = false) :
    iterActions fd w = [Action.select fd] := by
  simp [iterActions, hr]

theorem not_ready_of_failed (w : Wake) (h : w.retval ≤ 0) : w.ready = false := by
  cases hr : w.ready with
  | false => rfl
  | true =>
    have := ((ready_iff w).1 hr).1
    omega

theorem iterActions_failed (fd : Int) (w : Wake) (h : w.retval ≤ 0) :
    iterActions fd w = [Action.select fd] :=
  iterActions_notReady fd w (not_ready_of_failed w h)

theorem iterActions_head (fd : Int) (w : Wake) :
    ∃ tl, iterActions fd w = Action.select fd :: tl := by
  unfold iterActions
  split
  · exact ⟨_, rfl⟩
  · exact ⟨_, rfl⟩

theorem loopActions_head (fd : Int) (ws : List Wake) :
    ∃ tl, ws.flatMap (iterActions fd) ++ [Action.select fd] = Action.select fd :: tl := by
  cases ws with
  | nil => exact ⟨[], rfl⟩
  | cons w ws =>
    obtain ⟨tl, h⟩ := iterActions_head fd w
    exact ⟨tl ++ (ws.flatMap (iterActions fd) ++ [Action.select fd]), by simp [h]⟩

theorem filter_trigger_logLines (d : Device) : (logLines d).filter Action.isTrigger = [] := rfl

theorem filter_trigger_iter (fd : Int) (w : Wake) :
    (iterActions fd w).filter Action.isTrigger =
      if w.decoded = true then [Action.system refreshCommand] else [] := by
  cases hr : w.ready with
  | false => simp [iterActions, Wake.decoded, hr, Action.isTrigger]
  | true =>
    cases hd : w.dev with
    | none => simp [iterActions, Wake.decoded, hr, hd, afterDelay, Action.isTrigger]
    | some d =>
      simp [iterActions, Wake.decoded, hr, hd, afterDelay, logLines, Action.isTrigger]

theorem filter_trigger_loop (fd : Int) (ws : List Wake) :
    (ws.flatMap (iterActions fd) ++ [Action.select fd]).filter Action.isTrigger =
      List.replicate (ws.countP Wake.decoded) (Action.system refreshCommand) := by
  induction ws with
  | nil => simp [Action.isTrigger]
  | cons w ws ih =>
    rw [List.flatMap_cons, List.append_assoc, List.filter_append, ih, filter_trigger_iter,
      List.countP_cons]
    cases hdec : w.decoded with
    | false => simp
    | true => simp [List.replicate_succ, Nat.add_comm]

theorem filter_trigger_main (s : Startup) (sys : Nat → Int) (ws : List Wake)
    (h : s.passes = true) :
    (main s sys ws).trace.filter Action.isTrigger =
      Action.system autoCommand ::
        List.replicate (ws.countP Wake.decoded) (Action.system refreshCommand) := by
  rw [main_passes s sys ws h]
  show (setupActions ++ Action.system autoCommand :: _).filter Action.isTrigger = _
  rw [List.filter_append, List.filter_cons, filter_trigger_loop]
  simp [setupActions, Action.isTrigger]

theorem filter_log_loop_of_no_device (fd : Int) (ws : List Wake)
    (h : ∀ w ∈ ws, w.decoded = false) :
    (ws.flatMap (iterActions fd) ++ [Action.select fd]).filter Action.isLog = [] := by
  induction ws with
  | nil => simp [Action.isLog]
  | cons w ws ih =>
    have hw : w.decoded = false := h w (List.mem_cons_self _ _)
    have ih' := ih (fun v hv => h v (List.mem_cons_of_mem _ hv))
    rw [List.flatMap_cons, List.append_assoc, List.filter_append, ih', List.append_nil]
    cases hr : w.ready with
    | false => simp [iterActions, hr, Action.isLog]
    | true =>
      cases hd : w.dev with
      | none => simp [iterActions, hr, hd, afterDelay, Action.isLog]
      | some d => simp [Wake.decoded, hr, hd] at hw

theorem flatMap_decoded (fd : Int) (ws : List Wake) (ds : List Device)
    (hready : ∀ w ∈ ws, w.ready = true) (hdev : ws.map Wake.dev = ds.map some) :
    ws.flatMap (iterActions fd) = ds.flatMap (eventActions fd) := by
  induction ws generalizing ds with
  | nil =>
    cases ds with
    | nil => rfl
    | cons d ds => simp at hdev
  | cons w ws ih =>
    cases ds with
    | nil => simp at hdev
    | cons d ds =>
      simp only [List.map_cons, List.cons.injEq] at hdev
      rw [List.flatMap_cons, List.flatMap_cons,
        iterActions_decoded fd w d (hready w (List.mem_cons_self _ _)) hdev.1,
        ih ds (fun v hv => hready v (List.mem_cons_of_mem _ hv)) hdev.2]

theorem countP_decoded_of_all (ws : List Wake) (ds : List Device)
    (hready : ∀ w ∈ ws, w.ready = true) (hdev : ws.map Wake.dev = ds.map some) :
    ws.countP Wake.decoded = ws.length := by
  induction ws generalizing ds with
  | nil => rfl
  | cons w ws ih =>
    cases ds with
    | nil => simp at hdev
    | cons d ds =>
      simp only [List.map_cons, List.cons.injEq] at hdev
      have hw : w.decoded = true := by
        simp [Wake.decoded, hready w (List.mem_cons_self _ _), hdev.1]
      rw [List.countP_cons_of_pos _ _ hw, ih ds (fun v hv => hready v (List.mem_cons_of_mem _ hv)) hdev.2,
        List.length_cons]

theorem iteration_eq (sys : Nat → Int) (fd : Int) (w : Wake) (W : World) :
    iteration sys fd w W =
      { trace := W.trace ++ iterActions fd w,
        nsys := W.nsys + (if w.decoded = true then 1 else 0) } := by
  unfold iteration iterActions
  by_cases h : w.retval > 0 ∧ w.isset = true
  · have hr : w.ready = true := (ready_iff w).2 h
    cases hd : w.dev with
    | none => simp [h, hr, hd, afterDelay, World.emit, Wake.decoded]
    | some d =>
      simp [h, hr, hd, afterDelay, logLines, refreshCommand, World.emit, system, Wake.decoded]
  · have hr : ¬ w.ready = true := fun hr => h ((ready_iff w).1 hr)
    simp [h, hr, World.emit, Wake.decoded]

theorem loop_next_wait (sys : Nat → Int) (fd : Int) (ws : List Wake) (W : World) :
    ∃ tl, (loop sys fd ws W).trace = W.trace ++ Action.select fd :: tl := by
  obtain ⟨tl, h⟩ := loopActions_head fd ws
  exact ⟨tl, by rw [loop_trace, h]⟩

theorem stdout_of_no_log (l : List Action) (h : l.filter Action.isLog = []) : stdout l = "" := by
  induction l with
  | nil => rfl
  | cons a l ih =>
    cases a <;> simp_all [stdout, Action.isLog, List.filter_cons]

theorem main_fails (s : Startup) (sys : Nat → Int) (ws : List Wake) (h : s.passes = false) :
    main s sys ws = main s sys [] := by
  cases h1 : s.udev with
  | false => simp [main, h1]
  | true =>
    cases h2 : s.mon with
    | false => simp [main, h1, h2]
    | true =>
      have h3 : ¬ (0 ≤ s.fd_udev) := by
        intro h3
        simp [Startup.passes, h1, h2, h3] at h
      simp [main, h1, h2, h3]

theorem loop_failed_run (sys : Nat → Int) (fd : Int) (fs rest : List Wake) (W : World)
    (h : ∀ f ∈ fs, f.retval ≤ 0) :
    loop sys fd (fs ++ rest) W =
      loop sys fd rest
        { trace := W.trace ++ List.replicate fs.length (Action.select fd), nsys := W.nsys } := by
  induction fs generalizing W with
  | nil => simp
  | cons f fs ih =>
    have hf : f.decoded = false := by
      simp [Wake.decoded, not_ready_of_failed f (h f (List.mem_cons_self _ _))]
    rw [List.cons_append, loop, iteration_eq, iterActions_failed fd f (h f (List.mem_cons_self _ _)),
      ih _ (fun v hv => h v (List.mem_cons_of_mem _ hv))]
    simp [hf, List.replicate_succ]

theorem insertFailed_filter (p : Action → Bool) (fd : Int) (hp : p (Action.select fd) = false)
    {ws ws' : List Wake} (h : InsertFailed ws ws') :
    (ws'.flatMap (iterActions fd)).filter p = (ws.flatMap (iterActions fd)).filter p := by
  induction h with
  | nil => rfl
  | keep w _ ih => simp only [List.flatMap_cons, List.filter_append, ih]
  | insert f hf _ ih =>
    rw [List.flatMap_cons, List.filter_append, iterActions_failed fd f hf, ih]
    simp [hp]

theorem insertFailed_main_filter (p : Action → Bool) (hp : ∀ fd, p (Action.select fd) = false)
    (s : Startup) (sys : Nat → Int) {ws ws' : List Wake} (h : InsertFailed ws ws') :
    (main s sys ws').trace.filter p = (main s sys ws).trace.filter p := by
  cases hs : s.passes with
  | false => rw [main_fails s sys ws hs, main_fails s sys ws' hs]
  | true =>
    rw [main_passes s sys ws hs, main_passes s sys ws' hs]
    simp only [List.filter_append, List.filter_cons, insertFailed_filter p s.fd_udev (hp _) h]

theorem main_status (s : Startup) (sys : Nat → Int) (ws : List Wake) :
    (main s sys ws).status = if s.passes = true then Status.waiting else Status.aborted := by
  cases hs : s.passes with
  | true => rw [main_passes s sys ws hs]; rfl
  | false =>
    rw [main_fails s sys ws hs]
    cases h1 : s.udev with
    | false => simp [main, h1, assertFail]
    | true =>
      cases h2 : s.mon with
      | false => simp [main, h1, h2, assertFail]
      | true =>
        have h3 : ¬ (0 ≤ s.fd_udev) := by
          intro h3
          simp [Startup.passes, h1, h2, h3] at hs
        simp [main, h1, h2, h3, assertFail]

theorem main_fails_cases (s : Startup) (sys : Nat → Int) (ws : List Wake) :
    (s.udev = false → main s sys ws =
        { trace := [Action.udev_new, Action.abort], status := Status.aborted })
      ∧ (s.udev = true → s.mon = false → main s sys ws =
        { trace := [Action.udev_new, Action.udev_monitor_new_from_netlink "udev", Action.abort],
          status := Status.aborted })
      ∧ (s.udev = true → s.mon = true → s.fd_udev < 0 → main s sys ws =
        { trace := [Action.udev_new, Action.udev_monitor_new_from_netlink "udev",
            Action.udev_monitor_filter_add_match_subsystem_devtype "drm" "drm_minor",
            Action.udev_monitor_enable_receiving, Action.udev_monitor_get_fd, Action.abort],
          status := Status.aborted }) := by
  refine ⟨?_, ?_, ?_⟩
  · intro h1
    simp [main, h1, assertFail, World.emit]
  · intro h1 h2
    simp [main, h1, h2, assertFail, World.emit]
  · intro h1 h2 h3
    have h3' : ¬ (0 ≤ s.fd_udev) := by omega
    simp [main, h1, h2, h3', assertFail, World.emit]

theorem passes_iff (s : Startup) :
    s.passes = true ↔ (s.udev = true ∧ s.mon = true ∧ 0 ≤ s.fd_udev) := by
  simp [Startup.passes, and_assoc]

theorem not_passes_of_failure (s : Startup)
    (h : s.udev = false ∨ s.mon = false ∨ s.fd_udev < 0) : s.passes = false := by
  cases hp : s.passes with
  | false => rfl
  | true =>
    obtain ⟨h1, h2, h3⟩ := (passes_iff s).1 hp
    rcases h with h | h | h
    · simp [h1] at h
    · simp [h2] at h
    · omega

theorem auto_not_in_iterActions (fd : Int) (w : Wake) :
    Action.system autoCommand ∉ iterActions fd w := by
  unfold iterActions
  split
  · cases w.dev with
    | none => simp [afterDelay]
    | some d => simp [afterDelay, logLines, autoCommand, refreshCommand]
  · simp

theorem auto_not_in_loopActions (fd : Int) (ws : List Wake) :
    Action.system autoCommand ∉ ws.flatMap (iterActions fd) ++ [Action.select fd] := by
  intro h
  rw [List.mem_append, List.mem_flatMap] at h
  rcases h with ⟨w, _, hw⟩ | h
  · exact auto_not_in_iterActions fd w hw
  · simp at h

theorem filter_loop_replicate (p : Action → Bool) (c : Wake → Bool) (x : Action) (fd : Int)
    (hsel : p (Action.select fd) = false)
    (hiter : ∀ w, (iterActions fd w).filter p = if c w = true then [x] else [])
    (ws : List Wake) :
    (ws.flatMap (iterActions fd) ++ [Action.select fd]).filter p =
      List.replicate (ws.countP c) x := by
  induction ws with
  | nil => simp [hsel]
  | cons w ws ih =>
    rw [List.flatMap_cons, List.append_assoc, List.filter_append, ih, hiter, List.countP_cons]
    cases hc : c w with
    | false => simp
    | true => simp [List.replicate_succ, Nat.add_comm]

theorem filter_delay_iter (fd : Int) (w : Wake) :
    (iterActions fd w).filter Action.isDelay =
      if w.ready = true then [Action.sleep 1] else [] := by
  cases hr : w.ready with
  | false => simp [iterActions, hr, Action.isDelay]
  | true =>
    cases hd : w.dev with
    | none => simp [iterActions, hr, hd, afterDelay, Action.isDelay]
    | some d => simp [iterActions, hr, hd, afterDelay, logLines, Action.isDelay]

theorem filter_receive_iter (fd : Int) (w : Wake) :
    (iterActions fd w).filter Action.isReceive =
      if w.ready = true then [Action.udev_monitor_receive_device] else [] := by
  cases hr : w.ready with
  | false => simp [iterActions, hr, Action.isReceive]
  | true =>
    cases hd : w.dev with
    | none => simp [iterActions, hr, hd, afterDelay, Action.isReceive]
    | some d => simp [iterActions, hr, hd, afterDelay, logLines, Action.isReceive]

theorem filterMap_command (l : List Action) :
    l.filterMap Action.command? = (l.filter Action.isTrigger).filterMap Action.command? := by
  induction l with
  | nil => rfl
  | cons a l ih =>
    cases a <;> simp [List.filterMap_cons, List.filter_cons, Action.command?, Action.isTrigger, ih]

theorem filterMap_command_replicate (n : Nat) (c : String) :
    (List.replicate n (Action.system c)).filterMap Action.command? = List.replicate n c := by
  induction n with
  | zero => rfl
  | succ n ih => simp [List.replicate_succ, List.filterMap_cons, Action.command?, ih]

theorem main_sys_irrelevant (s : Startup) (sys₁ sys₂ : Nat → Int) (ws : List Wake) :
    main s sys₁ ws = main s sys₂ ws := by
  cases hp : s.passes with
  | true => rw [main_passes s sys₁ ws hp, main_passes s sys₂ ws hp]
  | false =>
    obtain ⟨a1, a2, a3⟩ := main_fails_cases s sys₁ ws
    obtain ⟨b1, b2, b3⟩ := main_fails_cases s sys₂ ws
    cases h1 : s.udev with
    | false => rw [a1 h1, b1 h1]
    | true =>
      cases h2 : s.mon with
      | false => rw [a2 h1 h2, b2 h1 h2]
      | true =>
        have h3 : s.fd_udev < 0 := by
          by_contra hge
          have : s.passes = true := (passes_iff s).2 ⟨h1, h2, by omega⟩
          rw [hp] at this
          exact Bool.false_ne_true this
        rw [a3 h1 h2 h3, b3 h1 h2 h3]

theorem flatMap_failed (fd : Int) (fs : List Wake) (h : ∀ f ∈ fs, f.retval ≤ 0) :
    fs.flatMap (iterActions fd) = List.replicate fs.length (Action.select fd) := by
  induction fs with
  | nil => rfl
  | cons f fs ih =>
    rw [List.flatMap_cons, iterActions_failed fd f (h f (List.mem_cons_self _ _)),
      ih (fun v hv => h v (List.mem_cons_of_mem _ hv)), List.length_cons, List.replicate_succ]
    rfl

theorem loop_after_failed (sys : Nat → Int) (fd : Int) (fs rest : List Wake) (W : World)
    (h : ∀ f ∈ fs, f.retval ≤ 0) :
    (loop sys fd (fs ++ rest) W).trace =
      W.trace ++ List.replicate fs.length (Action.select fd) ++
        (rest.flatMap (iterActions fd) ++ [Action.select fd]) := by
  rw [loop_trace, List.flatMap_append, flatMap_failed fd fs h]
  simp only [List.append_assoc]

/-! ## The claims -/

/-- C1: in a run whose start-up passes and whose `N` wakes are all ready and all yield
a device (the devices being `ds`, in arrival order), the trace is the set-up calls,
the start-up trigger, then for each device in order the block wait, receive, delay,
four log lines, release, trigger, and finally the next wait.  So the start-up trigger
comes before the first wait, the trigger of the `k`-th event comes after the log of
that event and before the following wait, and there are exactly `N + 1` triggers. -/
theorem C1_one_trigger_per_event (s : Startup) (sys : Nat → Int) (ws : List Wake)
    (ds : List Device) (hs : s.passes = true) (hready : ∀ w ∈ ws, w.ready = true)
    (hdev : ws.map Wake.dev = ds.map some) :
    (main s sys ws).trace =
        setupActions ++ Action.system autoCommand ::
          (ds.flatMap (eventActions s.fd_udev) ++ [Action.select s.fd_udev])
      ∧ (main s sys ws).trace.filter Action.isTrigger =
        Action.system autoCommand :: List.replicate ws.length (Action.system refreshCommand)
      ∧ (main s sys ws).trace.countP Action.isTrigger = ws.length + 1
      ∧ ds.length = ws.length := by
  have hlen : ds.length = ws.length := by
    have := congrArg List.length hdev
    simpa using this.symm
  have hf := filter_trigger_main s sys ws hs
  rw [countP_decoded_of_all ws ds hready hdev] at hf
  refine ⟨?_, hf, ?_, hlen⟩
  · rw [main_passes s sys ws hs, flatMap_decoded s.fd_udev ws ds hready hdev]
  · rw [List.countP_eq_length_filter, hf]
    simp

/-- C1, at a concrete run: two `change` events on descriptor 3. -/
theorem C1_one_trigger_per_event_witness :
    (main ⟨true, true, 0, 0, 3, 0⟩ (fun _ => 0)
        [⟨1, true, some ⟨"change", "card0", "/devices/card0"⟩⟩,
         ⟨1, true, some ⟨"add", "card1", "/devices/card1"⟩⟩]).trace.countP Action.isTrigger
      = 2 + 1 :=
  (C1_one_trigger_per_event ⟨true, true, 0, 0, 3, 0⟩ (fun _ => 0)
    [⟨1, true, some ⟨"change", "card0", "/devices/card0"⟩⟩,
     ⟨1, true, some ⟨"add", "card1", "/devices/card1"⟩⟩]
    [⟨"change", "card0", "/devices/card0"⟩, ⟨"add", "card1", "/devices/card1"⟩]
    (by decide) (by decide) (by decide)).2.2.1

/-- C2: an iteration whose wake is ready but yields no device (receive returned NULL)
makes exactly the calls wait, receive, delay, so no log line and no trigger, and the
next call of the loop is again the wait.  A run that passes start-up and has only such
wakes writes nothing and its only trigger is the start-up one. -/
theorem C2_spurious_wake_is_silent (s : Startup) (sys : Nat → Int) (ws : List Wake)
    (hs : s.passes = true) (hsp : ∀ w ∈ ws, w.ready = true ∧ w.dev = none) :
    (∀ (fd : Int) (W : World) (w : Wake) (rest : List Wake), w.ready = true → w.dev = none →
        iteration sys fd w W =
            { trace := W.trace ++
                [Action.select fd, Action.udev_monitor_receive_device, Action.sleep 1],
              nsys := W.nsys }
          ∧ ∃ tl, (loop sys fd (w :: rest) W).trace =
              (iteration sys fd w W).trace ++ Action.select fd :: tl)
      ∧ (main s sys ws).trace.filter Action.isLog = []
      ∧ stdout (main s sys ws).trace = ""
      ∧ (main s sys ws).trace.filter Action.isTrigger = [Action.system autoCommand]
      ∧ (main s sys ws).trace.countP Action.isTrigger = 1 := by
  have hdec : ∀ w ∈ ws, w.decoded = false := by
    intro w hw
    simp [Wake.decoded, (hsp w hw).2]
  have hlog : (main s sys ws).trace.filter Action.isLog = [] := by
    rw [main_passes s sys ws hs]
    show (setupActions ++ Action.system autoCommand :: _).filter Action.isLog = _
    rw [List.filter_append, List.filter_cons, filter_log_loop_of_no_device s.fd_udev ws hdec]
    simp [setupActions, Action.isLog]
  have hcount : ws.countP Wake.decoded = 0 := by
    rw [List.countP_eq_zero]
    intro w hw
    simp [hdec w hw]
  have htrig : (main s sys ws).trace.filter Action.isTrigger = [Action.system autoCommand] := by
    rw [filter_trigger_main s sys ws hs, hcount]
    rfl
  refine ⟨?_, hlog, stdout_of_no_log _ hlog, htrig, ?_⟩
  · intro fd W w rest hr hd
    have hw : w.decoded = false := by simp [Wake.decoded, hd]
    refine ⟨?_, ?_⟩
    · rw [iteration_eq, iterActions_spurious fd w hr hd]
      simp [hw]
    · exact loop_next_wait sys fd rest (iteration sys fd w W)
  · rw [List.countP_eq_length_filter, htrig]
    rfl

/-- C2, at a concrete run: three spurious wakes on descriptor 3. -/
theorem C2_spurious_wake_is_silent_witness :
    stdout (main ⟨true, true, 0, 0, 3, 0⟩ (fun _ => 0)
        [⟨1, true, none⟩, ⟨1, true, none⟩, ⟨2, true, none⟩]).trace = ""
      ∧ (main ⟨true, true, 0, 0, 3, 0⟩ (fun _ => 0)
        [⟨1, true, none⟩, ⟨1, true, none⟩, ⟨2, true, none⟩]).trace.countP Action.isTrigger = 1 :=
  have h := C2_spurious_wake_is_silent ⟨true, true, 0, 0, 3, 0⟩ (fun _ => 0)
    [⟨1, true, none⟩, ⟨1, true, none⟩, ⟨2, true, none⟩] (by decide) (by decide)
  ⟨h.2.2.1, h.2.2.2.2⟩

/-- C3: an iteration whose `select` returned a value `≤ 0` makes no call but the wait
itself (no receive, no delay, no log, no trigger) and the loop carries on with the
following wakes; any number of failed waits in a row only adds that many waits, with
nothing in between; the run never leaves the loop; and inserting failed waits anywhere
in a sequence of wakes changes nothing in the trace but the added waits, in particular
not the log lines and triggers.  The loop re-enters the wait: the call that follows a
failed wait is `select` again, also after any number of failures in a row; an event
that arrives after the failures is handled in full (wait, receive, delay, four log
lines, release, trigger, then the next wait); and in a run of `main` failed waits put
in front of the wakes only add that many `select` calls between the start-up trigger
and the rest of the trace, which itself starts with `select`. -/
theorem C3_failed_wait_is_retried (s : Startup) (sys : Nat → Int) (ws ws' : List Wake)
    (h : InsertFailed ws ws') :
    (∀ (fd : Int) (W : World) (w : Wake) (rest : List Wake), w.retval ≤ 0 →
        iteration sys fd w W = W.emit (Action.select fd)
          ∧ loop sys fd (w :: rest) W = loop sys fd rest (W.emit (Action.select fd)))
      ∧ (∀ (fd : Int) (W : World) (fs rest : List Wake), (∀ f ∈ fs, f.retval ≤ 0) →
          loop sys fd (fs ++ rest) W =
            loop sys fd rest
              { trace := W.trace ++ List.replicate fs.length (Action.select fd),
                nsys := W.nsys })
      ∧ (main s sys ws').status = (main s sys ws).status
      ∧ (s.passes = true → (main s sys ws').status = Status.waiting)
      ∧ (main s sys ws').trace.filter (fun a => a.isLog || a.isTrigger) =
          (main s sys ws).trace.filter (fun a => a.isLog || a.isTrigger)
      ∧ (main s sys ws').trace.filter (fun a => !a.isWait) =
          (main s sys ws).trace.filter (fun a => !a.isWait)
      ∧ (∀ (fd : Int) (W : World) (w : Wake) (rest : List Wake), w.retval ≤ 0 →
          ∃ tl, (loop sys fd (w :: rest) W).trace =
            W.trace ++ Action.select fd :: Action.select fd :: tl)
      ∧ (∀ (fd : Int) (W : World) (fs rest : List Wake), (∀ f ∈ fs, f.retval ≤ 0) →
          ∃ tl, (loop sys fd (fs ++ rest) W).trace =
            W.trace ++ List.replicate fs.length (Action.select fd) ++ Action.select fd :: tl)
      ∧ (∀ (fd : Int) (W : World) (fs rest : List Wake) (r : Int) (d : Device),
          (∀ f ∈ fs, f.retval ≤ 0) → r > 0 →
          ∃ tl, (loop sys fd (fs ++ ⟨r, true, some d⟩ :: rest) W).trace =
            W.trace ++ List.replicate fs.length (Action.select fd) ++
              [Action.select fd, Action.udev_monitor_receive_device, Action.sleep 1,
               Action.printf ("I: ACTION=" ++ d.action ++ "\n"),
               Action.printf ("I: DEVNAME=" ++ d.sysname ++ "\n"),
               Action.printf ("I: DEVPATH=" ++ d.devpath ++ "\n"),
               Action.printf "---\n", Action.udev_device_unref,
               Action.system "/usr/bin/xrandr"] ++ Action.select fd :: tl)
      ∧ (s.passes = true → ∀ fs : List Wake, (∀ f ∈ fs, f.retval ≤ 0) →
          ∃ tl, (main s sys ws).trace =
              setupActions ++ Action.system autoCommand :: Action.select s.fd_udev :: tl
            ∧ (main s sys (fs ++ ws)).trace =
              setupActions ++ Action.system autoCommand ::
                (List.replicate fs.length (Action.select s.fd_udev) ++
                  Action.select s.fd_udev :: tl)) := by
  have hiter : ∀ (fd : Int) (W : World) (w : Wake), w.retval ≤ 0 →
      iteration sys fd w W = W.emit (Action.select fd) := by
    intro fd W w hw
    have hd : w.decoded = false := by simp [Wake.decoded, not_ready_of_failed w hw]
    rw [iteration_eq, iterActions_failed fd w hw]
    simp [hd, World.emit]
  have hrun : ∀ (fd : Int) (W : World) (fs rest : List Wake), (∀ f ∈ fs, f.retval ≤ 0) →
      ∃ tl, (loop sys fd (fs ++ rest) W).trace =
        W.trace ++ List.replicate fs.length (Action.select fd) ++ Action.select fd :: tl := by
    intro fd W fs rest hfs
    obtain ⟨tl, htl⟩ := loopActions_head fd rest
    exact ⟨tl, by rw [loop_after_failed sys fd fs rest W hfs, htl]⟩
  refine ⟨?_, ?_, ?_, ?_, ?_, ?_, ?_, hrun, ?_, ?_⟩
  · intro fd W w rest hw
    exact ⟨hiter fd W w hw, by rw [loop, hiter fd W w hw]⟩
  · intro fd W fs rest hfs
    exact loop_failed_run sys fd fs rest W hfs
  · rw [main_status, main_status]
  · intro hs
    rw [main_status, if_pos hs]
  · exact insertFailed_main_filter _ (fun _ => rfl) s sys h
  · exact insertFailed_main_filter _ (fun _ => rfl) s sys h
  · intro fd W w rest hw
    obtain ⟨tl, htl⟩ := hrun fd W [w] rest (by
      intro f hf
      rw [List.mem_singleton] at hf
      rw [hf]
      exact hw)
    exact ⟨tl, by simpa using htl⟩
  · intro fd W fs rest r d hfs hr
    have hready : (⟨r, true, some d⟩ : Wake).ready = true := (ready_iff _).2 ⟨hr, rfl⟩
    obtain ⟨tl, htl⟩ := loopActions_head fd rest
    refine ⟨tl, ?_⟩
    rw [loop_after_failed sys fd fs _ W hfs, List.flatMap_cons,
      iterActions_decoded fd _ d hready rfl, List.append_assoc (eventActions fd d), htl]
    simp [eventActions, logLines, refreshCommand, List.append_assoc]
  · intro hs fs hfs
    obtain ⟨tl, htl⟩ := loopActions_head s.fd_udev ws
    refine ⟨tl, ?_, ?_⟩
    · rw [main_passes s sys ws hs, htl]
    · rw [main_passes s sys (fs ++ ws) hs, List.flatMap_append,
        flatMap_failed s.fd_udev fs hfs, List.append_assoc, htl]

/-- C3, at a concrete run: an event, with interrupted waits (`-1`) put before and
after it. -/
theorem C3_failed_wait_is_retried_witness :
    (main ⟨true, true, 0, 0, 3, 0⟩ (fun _ => 0)
        [⟨-1, false, none⟩, ⟨1, true, some ⟨"change", "card0", "/devices/card0"⟩⟩,
         ⟨-1, true, none⟩, ⟨0, false, none⟩]).trace.filter (fun a => a.isLog || a.isTrigger) =
      (main ⟨true, true, 0, 0, 3, 0⟩ (fun _ => 0)
        [⟨1, true, some ⟨"change", "card0", "/devices/card0"⟩⟩]).trace.filter
          (fun a => a.isLog || a.isTrigger) :=
  (C3_failed_wait_is_retried ⟨true, true, 0, 0, 3, 0⟩ (fun _ => 0)
    [⟨1, true, some ⟨"change", "card0", "/devices/card0"⟩⟩]
    [⟨-1, false, none⟩, ⟨1, true, some ⟨"change", "card0", "/devices/card0"⟩⟩,
     ⟨-1, true, none⟩, ⟨0, false, none⟩]
    (InsertFailed.insert _ (by decide)
      (InsertFailed.keep _
        (InsertFailed.insert _ (by decide)
          (InsertFailed.insert _ (by decide) InsertFailed.nil))))).2.2.2.2.1

/-- C4, as stated, fails: with the filter call and the enable call both returning `-1`
(failure) the start-up trigger is issued all the same. -/
theorem C4_counterexample :
    (⟨true, true, -1, -1, 3, 0⟩ : Startup).filterRet < 0
      ∧ (⟨true, true, -1, -1, 3, 0⟩ : Startup).enableRet < 0
      ∧ (main ⟨true, true, -1, -1, 3, 0⟩ (fun _ => 0) []).trace =
        [Action.udev_new, Action.udev_monitor_new_from_netlink "udev",
         Action.udev_monitor_filter_add_match_subsystem_devtype "drm" "drm_minor",
         Action.udev_monitor_enable_receiving, Action.udev_monitor_get_fd, Action.daemon 0 0,
         Action.system "/usr/bin/xrandr --auto", Action.select 3] := by
  decide

/-- C4, amended: in every run whose open and descriptor acquisition succeed, whatever
the subscribe and enable calls returned, the trace starts with open (`udev_new`,
`udev_monitor_new_from_netlink`), subscribe, enable, descriptor, daemonize, then the
start-up trigger, then the first wait; the start-up command occurs exactly once in the
trace, and no loop iteration issues it. -/
theorem C4_startup_trigger_once (s : Startup) (sys : Nat → Int) (ws : List Wake)
    (hs : s.passes = true) :
    (∃ tl, (main s sys ws).trace =
        [Action.udev_new, Action.udev_monitor_new_from_netlink "udev",
         Action.udev_monitor_filter_add_match_subsystem_devtype "drm" "drm_minor",
         Action.udev_monitor_enable_receiving, Action.udev_monitor_get_fd, Action.daemon 0 0,
         Action.system autoCommand] ++ Action.select s.fd_udev :: tl
        ∧ Action.system autoCommand ∉ tl)
      ∧ (main s sys ws).trace.count (Action.system autoCommand) = 1
      ∧ (∀ (fd : Int) (w : Wake) (W : World), ∃ acts,
          (iteration sys fd w W).trace = W.trace ++ acts ∧ Action.system autoCommand ∉ acts)
      ∧ (∀ r r' : Int,
          main { s with filterRet := r, enableRet := r' } sys ws = main s sys ws) := by
  have hnot := auto_not_in_loopActions s.fd_udev ws
  refine ⟨?_, ?_, ?_, ?_⟩
  · obtain ⟨tl, htl⟩ := loopActions_head s.fd_udev ws
    refine ⟨tl, ?_, ?_⟩
    · rw [main_passes s sys ws hs, htl]
      rfl
    · intro hmem
      apply hnot
      rw [htl]
      exact List.mem_cons_of_mem _ hmem
  · rw [main_passes s sys ws hs]
    show (setupActions ++ Action.system autoCommand :: _).count _ = 1
    rw [List.count_append, List.count_cons_self, List.count_eq_zero_of_not_mem hnot]
    decide
  · intro fd w W
    exact ⟨iterActions fd w, iteration_trace sys fd w W, auto_not_in_iterActions fd w⟩
  · intro r r'
    have hs' : ({ s with filterRet := r, enableRet := r' } : Startup).passes = true := hs
    rw [main_passes s sys ws hs, main_passes _ sys ws hs']

/-- C4 amended, at a concrete run: subscribe and enable fail, one event arrives. -/
theorem C4_startup_trigger_once_witness :
    (main ⟨true, true, -1, -1, 3, 0⟩ (fun _ => 0)
        [⟨1, true, some ⟨"change", "card0", "/devices/card0"⟩⟩]).trace.count
      (Action.system autoCommand) = 1 :=
  (C4_startup_trigger_once ⟨true, true, -1, -1, 3, 0⟩ (fun _ => 0)
    [⟨1, true, some ⟨"change", "card0", "/devices/card0"⟩⟩] (by decide)).2.1

/-- C5: if `udev_new` or `udev_monitor_new_from_netlink` returns NULL, or
`udev_monitor_get_fd` returns a negative value, the run ends in `abort` right after the
failing call: abnormal termination, with no daemonize, no trigger and no wait in the
trace.  Conversely a run in which daemonize occurs has passed all three checks. -/
theorem C5_startup_failure_aborts (s : Startup) (sys : Nat → Int) (ws : List Wake)
    (h : s.udev = false ∨ s.mon = false ∨ s.fd_udev < 0) :
    (main s sys ws).status = Status.aborted
      ∧ (main s sys ws).status.abnormal = true
      ∧ (s.udev = false → (main s sys ws).trace = [Action.udev_new, Action.abort])
      ∧ (s.udev = true → s.mon = false → (main s sys ws).trace =
          [Action.udev_new, Action.udev_monitor_new_from_netlink "udev", Action.abort])
      ∧ (s.udev = true → s.mon = true → s.fd_udev < 0 → (main s sys ws).trace =
          [Action.udev_new, Action.udev_monitor_new_from_netlink "udev",
           Action.udev_monitor_filter_add_match_subsystem_devtype "drm" "drm_minor",
           Action.udev_monitor_enable_receiving, Action.udev_monitor_get_fd, Action.abort])
      ∧ (∀ a ∈ (main s sys ws).trace,
          a.isDaemonize = false ∧ a.isTrigger = false ∧ a.isWait = false)
      ∧ (∀ (s' : Startup) (a : Action), a ∈ (main s' sys ws).trace → a.isDaemonize = true →
          s'.udev = true ∧ s'.mon = true ∧ 0 ≤ s'.fd_udev) := by
  have hcases := main_fails_cases s sys ws
  have hst : (main s sys ws).status = Status.aborted := by
    rw [main_status, not_passes_of_failure s h]
    rfl
  have hnone : ∀ (t : Startup), t.passes = false → ∀ a ∈ (main t sys ws).trace,
      a.isDaemonize = false ∧ a.isTrigger = false ∧ a.isWait = false := by
    intro t ht
    obtain ⟨c1, c2, c3⟩ := main_fails_cases t sys ws
    cases h1 : t.udev with
    | false =>
      rw [c1 h1]
      decide
    | true =>
      cases h2 : t.mon with
      | false =>
        rw [c2 h1 h2]
        decide
      | true =>
        have h3 : t.fd_udev < 0 := by
          by_contra hge
          have : t.passes = true := (passes_iff t).2 ⟨h1, h2, by omega⟩
          rw [ht] at this
          exact Bool.false_ne_true this
        rw [c3 h1 h2 h3]
        decide
  refine ⟨hst, by rw [hst]; rfl, ?_, ?_, ?_, hnone s (not_passes_of_failure s h), ?_⟩
  · intro h1
    rw [hcases.1 h1]
  · intro h1 h2
    rw [hcases.2.1 h1 h2]
  · intro h1 h2 h3
    rw [hcases.2.2 h1 h2 h3]
  · intro s' a ha hd
    cases hp : s'.passes with
    | true => exact (passes_iff s').1 hp
    | false =>
      have := (hnone s' hp a ha).1
      rw [hd] at this
      exact absurd this (by decide)

/-- C5, at a concrete run: the descriptor is `-1`. -/
theorem C5_startup_failure_aborts_witness :
    (main ⟨true, true, 0, 0, -1, 0⟩ (fun _ => 0) [⟨1, true, none⟩]).status = Status.aborted :=
  (C5_startup_failure_aborts ⟨true, true, 0, 0, -1, 0⟩ (fun _ => 0) [⟨1, true, none⟩]
    (Or.inr (Or.inr (by decide)))).1

/-- C6, as stated, fails: with the filter call returning `-1`, and likewise with the
enable call returning `-1`, the process does not abort: it daemonizes, issues the
start-up trigger and waits in the loop. -/
theorem C6_counterexample :
    main ⟨true, true, -1, 0, 3, 0⟩ (fun _ => 0) [] =
        { trace := [Action.udev_new, Action.udev_monitor_new_from_netlink "udev",
            Action.udev_monitor_filter_add_match_subsystem_devtype "drm" "drm_minor",
            Action.udev_monitor_enable_receiving, Action.udev_monitor_get_fd, Action.daemon 0 0,
            Action.system "/usr/bin/xrandr --auto", Action.select 3],
          status := Status.waiting }
      ∧ main ⟨true, true, 0, -1, 3, 0⟩ (fun _ => 0) [] =
        { trace := [Action.udev_new, Action.udev_monitor_new_from_netlink "udev",
            Action.udev_monitor_filter_add_match_subsystem_devtype "drm" "drm_minor",
            Action.udev_monitor_enable_receiving, Action.udev_monitor_get_fd, Action.daemon 0 0,
            Action.system "/usr/bin/xrandr --auto", Action.select 3],
          status := Status.waiting } := by
  decide

/-- C6, amended: the results of the filter call and of the enable call are not
checked.  When open and descriptor acquisition succeed, the run is the same whatever
the two calls return (`r`, `r'`, negative values included) as when both return `0`: the
process does not abort, it daemonizes, issues the start-up trigger and enters the
loop. -/
theorem C6_subscription_result_unchecked (s : Startup) (sys : Nat → Int) (ws : List Wake)
    (r r' : Int) (hs : s.passes = true) :
    main { s with filterRet := r, enableRet := r' } sys ws =
        main { s with filterRet := 0, enableRet := 0 } sys ws
      ∧ (main { s with filterRet := r, enableRet := r' } sys ws).status = Status.waiting
      ∧ (main { s with filterRet := r, enableRet := r' } sys ws).trace =
        setupActions ++ Action.system autoCommand ::
          (ws.flatMap (iterActions s.fd_udev) ++ [Action.select s.fd_udev])
      ∧ Action.abort ∉ (main { s with filterRet := r, enableRet := r' } sys ws).trace := by
  have hs' : ({ s with filterRet := r, enableRet := r' } : Startup).passes = true := hs
  have hs0 : ({ s with filterRet := 0, enableRet := 0 } : Startup).passes = true := hs
  have hmain := main_passes _ sys ws hs'
  refine ⟨?_, ?_, ?_, ?_⟩
  · rw [hmain, main_passes _ sys ws hs0]
  · rw [hmain]
  · rw [hmain]
  · rw [hmain]
    show Action.abort ∉ setupActions ++ Action.system autoCommand :: _
    intro hmem
    rw [List.mem_append, List.mem_cons, List.mem_append, List.mem_flatMap] at hmem
    rcases hmem with hmem | hmem | ⟨w, _, hw⟩ | hmem
    · revert hmem
      decide
    · exact Action.noConfusion hmem
    · unfold iterActions at hw
      split at hw
      · cases hd : w.dev with
        | none => simp [hd, afterDelay] at hw
        | some d => simp [hd, afterDelay, logLines] at hw
      · simp at hw
    · simp at hmem

/-- C6 amended, at a concrete run: the filter call returns `-1`. -/
theorem C6_subscription_result_unchecked_witness :
    (main ⟨true, true, -1, 0, 3, 0⟩ (fun _ => 0) [⟨1, true, none⟩]).status = Status.waiting :=
  (C6_subscription_result_unchecked ⟨true, true, 0, 0, 3, 0⟩ (fun _ => 0) [⟨1, true, none⟩]
    (-1) 0 (by decide)).2.1

/-- C7: an iteration whose wake is ready makes one receive call and then one `sleep(1)`,
whether or not a device was received; when a device was received the log lines and the
trigger come after the delay and no further delay or receive follows.  An iteration
whose wake is not ready makes no call but the wait.  Over a whole run the delays are
exactly one `sleep(1)` per ready wake, and so are the receive calls. -/
theorem C7_delay_after_receive (s : Startup) (sys : Nat → Int) (ws : List Wake)
    (hs : s.passes = true) :
    (∀ (fd : Int) (W : World) (w : Wake), w.ready = true → w.dev = none →
        (iteration sys fd w W).trace = W.trace ++
          [Action.select fd, Action.udev_monitor_receive_device, Action.sleep 1])
      ∧ (∀ (fd : Int) (W : World) (w : Wake) (d : Device), w.ready = true → w.dev = some d →
        (iteration sys fd w W).trace = W.trace ++
          [Action.select fd, Action.udev_monitor_receive_device, Action.sleep 1,
           Action.printf ("I: ACTION=" ++ d.action ++ "\n"),
           Action.printf ("I: DEVNAME=" ++ d.sysname ++ "\n"),
           Action.printf ("I: DEVPATH=" ++ d.devpath ++ "\n"),
           Action.printf "---\n", Action.udev_device_unref, Action.system refreshCommand])
      ∧ (∀ (fd : Int) (W : World) (w : Wake), w.ready = false →
        (iteration sys fd w W).trace = W.trace ++ [Action.select fd])
      ∧ (main s sys ws).trace.filter Action.isDelay =
        List.replicate (ws.countP Wake.ready) (Action.sleep 1)
      ∧ (main s sys ws).trace.countP Action.isReceive = ws.countP Wake.ready := by
  refine ⟨?_, ?_, ?_, ?_, ?_⟩
  · intro fd W w hr hd
    rw [iteration_trace, iterActions_spurious fd w hr hd]
  · intro fd W w d hr hd
    rw [iteration_trace, iterActions_decoded fd w d hr hd]
    rfl
  · intro fd W w hr
    rw [iteration_trace, iterActions_notReady fd w hr]
  · rw [main_passes s sys ws hs]
    show (setupActions ++ Action.system autoCommand :: _).filter Action.isDelay = _
    rw [List.filter_append, List.filter_cons,
      filter_loop_replicate Action.isDelay Wake.ready (Action.sleep 1) s.fd_udev rfl
        (filter_delay_iter s.fd_udev) ws]
    simp [setupActions, Action.isDelay]
  · rw [main_passes s sys ws hs, List.countP_eq_length_filter]
    show ((setupActions ++ Action.system autoCommand :: _).filter Action.isReceive).length = _
    rw [List.filter_append, List.filter_cons,
      filter_loop_replicate Action.isReceive Wake.ready Action.udev_monitor_receive_device
        s.fd_udev rfl (filter_receive_iter s.fd_udev) ws]
    simp [setupActions, Action.isReceive]

/-- C7, at a concrete run: a failed wait, a spurious wake and an event give two delays. -/
theorem C7_delay_after_receive_witness :
    (main ⟨true, true, 0, 0, 3, 0⟩ (fun _ => 0)
        [⟨-1, false, none⟩, ⟨1, true, none⟩,
         ⟨1, true, some ⟨"change", "card0", "/devices/card0"⟩⟩]).trace.filter Action.isDelay =
      [Action.sleep 1, Action.sleep 1] :=
  (C7_delay_after_receive ⟨true, true, 0, 0, 3, 0⟩ (fun _ => 0)
    [⟨-1, false, none⟩, ⟨1, true, none⟩,
     ⟨1, true, some ⟨"change", "card0", "/devices/card0"⟩⟩] (by decide)).2.2.2.1

/-- C8: the iteration that handles a decoded event with fields `a`, `n`, `p` makes the
calls wait, receive, delay, then `printf` of "I: ACTION=a", "I: DEVNAME=n",
"I: DEVPATH=p" and "---", each ended by a newline, then the release of the device and
one trigger; the text written is those four lines in that order, the iteration has
exactly one trigger, and the next call of the loop is the wait. -/
theorem C8_event_log_format (sys : Nat → Int) (fd : Int) (W : World) (r : Int)
    (a n p : String) (rest : List Wake) (hr : r > 0) :
    ∃ acts tl,
      (iteration sys fd ⟨r, true, some ⟨a, n, p⟩⟩ W).trace = W.trace ++ acts
      ∧ acts =
        [Action.select fd, Action.udev_monitor_receive_device, Action.sleep 1,
         Action.printf ("I: ACTION=" ++ a ++ "\n"),
         Action.printf ("I: DEVNAME=" ++ n ++ "\n"),
         Action.printf ("I: DEVPATH=" ++ p ++ "\n"),
         Action.printf "---\n", Action.udev_device_unref, Action.system "/usr/bin/xrandr"]
      ∧ stdout acts =
        "I: ACTION=" ++ a ++ "\n" ++ "I: DEVNAME=" ++ n ++ "\n" ++ "I: DEVPATH=" ++ p ++ "\n"
          ++ "---\n"
      ∧ acts.countP Action.isTrigger = 1
      ∧ (loop sys fd (⟨r, true, some ⟨a, n, p⟩⟩ :: rest) W).trace =
        W.trace ++ acts ++ Action.select fd :: tl := by
  have hready : (⟨r, true, some ⟨a, n, p⟩⟩ : Wake).ready = true := (ready_iff _).2 ⟨hr, rfl⟩
  obtain ⟨tl, htl⟩ := loop_next_wait sys fd rest (iteration sys fd ⟨r, true, some ⟨a, n, p⟩⟩ W)
  have hiter := iteration_trace sys fd ⟨r, true, some ⟨a, n, p⟩⟩ W
  rw [iterActions_decoded fd _ ⟨a, n, p⟩ hready rfl] at hiter
  refine ⟨eventActions fd ⟨a, n, p⟩, tl, hiter, rfl, ?_, rfl, ?_⟩
  · simp only [eventActions, logLines, refreshCommand, stdout, List.cons_append, List.nil_append,
      String.append_assoc, String.append_empty]
  · rw [loop, htl, hiter]

/-- C8, at the event of the scenario: action "change", name "card0-DP-1", path
"/devices/pci0000:00/card0/drm/card0-DP-1". -/
theorem C8_event_log_format_witness :
    ∃ acts tl,
      (iteration (fun _ => 0) 3
          ⟨1, true, some ⟨"change", "card0-DP-1", "/devices/pci0000:00/card0/drm/card0-DP-1"⟩⟩
          ⟨[], 0⟩).trace = [] ++ acts
      ∧ acts =
        [Action.select 3, Action.udev_monitor_receive_device, Action.sleep 1,
         Action.printf "I: ACTION=change\n",
         Action.printf "I: DEVNAME=card0-DP-1\n",
         Action.printf "I: DEVPATH=/devices/pci0000:00/card0/drm/card0-DP-1\n",
         Action.printf "---\n", Action.udev_device_unref, Action.system "/usr/bin/xrandr"]
      ∧ stdout acts =
        "I: ACTION=change\nI: DEVNAME=card0-DP-1\nI: DEVPATH=/devices/pci0000:00/card0/drm/card0-DP-1\n---\n"
      ∧ acts.countP Action.isTrigger = 1
      ∧ (loop (fun _ => 0) 3
          [⟨1, true, some ⟨"change", "card0-DP-1", "/devices/pci0000:00/card0/drm/card0-DP-1"⟩⟩]
          ⟨[], 0⟩).trace = [] ++ acts ++ Action.select 3 :: tl :=
  C8_event_log_format (fun _ => 0) 3 ⟨[], 0⟩ 1 "change" "card0-DP-1"
    "/devices/pci0000:00/card0/drm/card0-DP-1" [] (by decide)

/-- C9: the process uses two fixed command lines, "/usr/bin/xrandr --auto" at line 27
and "/usr/bin/xrandr" at line 46, and they differ.  In a run that passes start-up the
commands issued are, in order, the first one once and then the second one once per
decoded event; an iteration that handles an event issues the second one whatever the
fields of the event are. -/
theorem C9_two_fixed_commands (s : Startup) (sys : Nat → Int) (ws : List Wake)
    (hs : s.passes = true) :
    autoCommand = "/usr/bin/xrandr --auto"
      ∧ refreshCommand = "/usr/bin/xrandr"
      ∧ autoCommand ≠ refreshCommand
      ∧ (main s sys ws).trace.filterMap Action.command? =
        autoCommand :: List.replicate (ws.countP Wake.decoded) refreshCommand
      ∧ (∃ tl, (main s sys ws).trace =
          setupActions ++ Action.system autoCommand :: Action.select s.fd_udev :: tl)
      ∧ (∀ (fd : Int) (W : World) (w : Wake),
          (iteration sys fd w W).trace.filterMap Action.command? =
            W.trace.filterMap Action.command? ++
              (if w.decoded = true then [refreshCommand] else []))
      ∧ (∀ (fd : Int) (W : World) (r r' : Int) (d d' : Device), r > 0 → r' > 0 →
          (iteration sys fd ⟨r, true, some d⟩ W).trace.filterMap Action.command? =
            (iteration sys fd ⟨r', true, some d'⟩ W).trace.filterMap Action.command?) := by
  have hiter : ∀ (fd : Int) (W : World) (w : Wake),
      (iteration sys fd w W).trace.filterMap Action.command? =
        W.trace.filterMap Action.command? ++
          (if w.decoded = true then [refreshCommand] else []) := by
    intro fd W w
    rw [iteration_trace, List.filterMap_append, filterMap_command (iterActions fd w),
      filter_trigger_iter]
    cases w.decoded <;> simp [Action.command?]
  refine ⟨rfl, rfl, by decide, ?_, ?_, hiter, ?_⟩
  · rw [filterMap_command, filter_trigger_main s sys ws hs, List.filterMap_cons]
    simp [Action.command?, filterMap_command_replicate]
  · obtain ⟨tl, htl⟩ := loopActions_head s.fd_udev ws
    exact ⟨tl, by rw [main_passes s sys ws hs, htl]⟩
  · intro fd W r r' d d' hr hr'
    have h1 : (⟨r, true, some d⟩ : Wake).decoded = true := by
      simp [Wake.decoded, Wake.ready, hr]
    have h2 : (⟨r', true, some d'⟩ : Wake).decoded = true := by
      simp [Wake.decoded, Wake.ready, hr']
    rw [hiter, hiter, h1, h2]

/-- C9, at a concrete run: two different events, one spurious wake. -/
theorem C9_two_fixed_commands_witness :
    (main ⟨true, true, 0, 0, 3, 0⟩ (fun _ => 0)
        [⟨1, true, some ⟨"change", "card0", "/devices/card0"⟩⟩, ⟨1, true, none⟩,
         ⟨1, true, some ⟨"remove", "card1", "/devices/card1"⟩⟩]).trace.filterMap
        Action.command? =
      ["/usr/bin/xrandr --auto", "/usr/bin/xrandr", "/usr/bin/xrandr"] :=
  (C9_two_fixed_commands ⟨true, true, 0, 0, 3, 0⟩ (fun _ => 0)
    [⟨1, true, some ⟨"change", "card0", "/devices/card0"⟩⟩, ⟨1, true, none⟩,
     ⟨1, true, some ⟨"remove", "card1", "/devices/card1"⟩⟩] (by decide)).2.2.2.1

/-- C10: the status returned by `system` is never used.  For any two assignments of
statuses to the invocations of the command, the runs are equal (same calls in the same
order, same final state of the process), every loop iteration leaves the same state,
and the number of triggers is one plus the number of decoded events when start-up
passes: a failed trigger is not repeated, adds no log line and does not end the loop. -/
theorem C10_exit_status_ignored (s : Startup) (sys₁ sys₂ : Nat → Int) (ws : List Wake) :
    main s sys₁ ws = main s sys₂ ws
      ∧ (∀ (fd : Int) (w : Wake) (W : World), iteration sys₁ fd w W = iteration sys₂ fd w W)
      ∧ (∀ (fd : Int) (W : World), loop sys₁ fd ws W = loop sys₂ fd ws W)
      ∧ main s sys₁ ws = main s (fun _ => 0) ws
      ∧ main s (fun _ => -1) ws = main s (fun _ => 0) ws
      ∧ (main s sys₁ ws).trace.countP Action.isTrigger =
        (if s.passes = true then 1 + ws.countP Wake.decoded else 0) := by
  have hiter : ∀ (fd : Int) (w : Wake) (W : World),
      iteration sys₁ fd w W = iteration sys₂ fd w W := by
    intro fd w W
    rw [iteration_eq, iteration_eq]
  refine ⟨main_sys_irrelevant s sys₁ sys₂ ws, hiter, ?_, main_sys_irrelevant s sys₁ _ ws,
    main_sys_irrelevant s _ _ ws, ?_⟩
  · intro fd W
    induction ws generalizing W with
    | nil => rfl
    | cons w ws ih => rw [loop, loop, hiter, ih]
  · cases hp : s.passes with
    | true =>
      rw [List.countP_eq_length_filter, filter_trigger_main s sys₁ ws hp]
      simp [Nat.add_comm]
    | false =>
      rw [List.countP_eq_zero.2]
      · rfl
      · intro a ha
        obtain ⟨c1, c2, c3⟩ := main_fails_cases s sys₁ ws
        cases h1 : s.udev with
        | false =>
          rw [c1 h1] at ha
          revert a
          decide
        | true =>
          cases h2 : s.mon with
          | false =>
            rw [c2 h1 h2] at ha
            revert a
            decide
          | true =>
            have h3 : s.fd_udev < 0 := by
              by_contra hge
              have : s.passes = true := (passes_iff s).2 ⟨h1, h2, by omega⟩
              rw [hp] at this
              exact Bool.false_ne_true this
            rw [c3 h1 h2 h3] at ha
            revert a
            decide

end CernvmFixAutoResize
